import Mathlib

/-!
Verification of the WCAG 2.4.7 focus-visible checker
(wcag_focus_visible_checker.py).

The development shallowly embeds the core of the checker:

* the Tab-traversal loop of check_focus_visibility (cycle detection via
  element signatures, hard cap of 100 steps);
* the batch partitioner of process_focus_results (size-5 slices);
* analyze_focus_batch at the level of the decoded service response
  (service call, brace extraction, JSON decoding and the elements-field
  check are summarised by an outcome datatype: every path except a
  successful decode with an elements field returns None);
* the aggregation loop of process_focus_results (per-element analysis
  check, focus_visible judgement with default False, final report);
* the browser-session / temp-directory lifecycle of setup_driver,
  cleanup_temp_dir and the try/finally of check_focus_visibility,
  embedded as explicit state passing over a resource ledger.

External effects (Selenium, the vision service) are parameters: the page
is a function from the number of Tab presses so far to the observed
attributes of the newly focused node, and the classification service is
a function from a batch to the outcome of the call-and-parse stage.
-/

/-- Attributes of the active element observed after one Tab press, as read
by the execute_script calls in check_focus_visibility (lines 182 to 196).
element_xpath is None when generate_xpath raises; the except branch
substitutes the sentinel Unknown. The two screenshots are the captures
taken immediately before and after the Tab press. -/
structure StepObservation where
  element_tag : String
  element_type : String
  element_id : String
  element_class : String
  element_text : String
  element_role : String
  element_xpath : Option String
  before_shot : String
  after_shot : String
deriving DecidableEq

/-- The xpath actually stored: generate_xpath result, or the sentinel
Unknown when it raised (lines 193 to 196). -/
def xpathOf (obs : StepObservation) : String :=
  obs.element_xpath.getD "Unknown"

/-- element_signature (line 199): tag, id, class and xpath joined by
underscores; the key of the cycle-detection seen set. -/
def element_signature (obs : StepObservation) : String :=
  obs.element_tag ++ "_" ++ obs.element_id ++ "_" ++ obs.element_class ++ "_" ++ xpathOf obs

/-- The element_info dictionary appended to focus_results
(lines 210 to 223). -/
structure FocusRecord where
  tab_index : Nat
  element_tag : String
  element_type : String
  element_id : String
  element_class : String
  element_text : String
  element_role : String
  element_xpath : String
  before_tab_screenshot : String
  after_tab_screenshot : String
deriving DecidableEq

/-- Building one element_info record from the step observation at a given
tab_index, with the text truncation of line 216. -/
def recordAt (tab_index : Nat) (obs : StepObservation) : FocusRecord :=
  { tab_index := tab_index
    element_tag := obs.element_tag
    element_type := obs.element_type
    element_id := obs.element_id
    element_class := obs.element_class
    element_text := if obs.element_text = "" then "" else obs.element_text.take 100
    element_role := obs.element_role
    element_xpath := xpathOf obs
    before_tab_screenshot := obs.before_shot
    after_tab_screenshot := obs.after_shot }

/-- max_tabs (line 168): hard cap on the number of Tab steps. -/
def max_tabs : Nat := 100

/-- The while loop of check_focus_visibility (lines 170 to 226).
page maps the number of Tab presses already performed to the attributes
of the node focused by the next Tab press. fuel equals
max_tabs - tab_index, so the loop guard tab_index < max_tabs is the
fuel being nonzero. On a signature already in the seen set the loop
breaks without appending; otherwise the record is appended and the
index advances. -/
def focusTabLoopAux (page : Nat → StepObservation) :
    Nat → Nat → List String → List FocusRecord → List FocusRecord
  | 0, _, _, focus_results => focus_results
  | fuel + 1, tab_index, previously_focused_elements, focus_results =>
    let obs := page tab_index
    let sig := element_signature obs
    if sig ∈ previously_focused_elements then
      focus_results
    else
      focusTabLoopAux page fuel (tab_index + 1) (sig :: previously_focused_elements)
        (focus_results ++ [recordAt tab_index obs])

/-- The traversal part of check_focus_visibility: the Tab loop started
with tab_index 0, empty seen set and empty focus_results. -/
def check_focus_visibility_loop (page : Nat → StepObservation) : List FocusRecord :=
  focusTabLoopAux page max_tabs 0 [] []

/-- batch_size (line 268). -/
def batch_size : Nat := 5

/-- The batch partitioner of process_focus_results (line 269):
focus_results sliced as focus_results i to i+5 for i in
range(0, len(focus_results), batch_size); the loop visits
batch_size * k for k below the ceiling of length over batch_size. -/
def makeBatches (xs : List FocusRecord) : List (List FocusRecord) :=
  (List.range ((xs.length + batch_size - 1) / batch_size)).map
    (fun k => (xs.drop (batch_size * k)).take batch_size)

/-- The analysis object of a decoded per-element result. focus_visible
is the judgement field read with result.analysis.get, default False
(line 295); None models the key being absent. -/
structure AnalysisResult where
  focus_visible : Option Bool
  focus_indicator_description : Option String
  compliance_techniques : Option (List String)
  recommendation : Option String
deriving DecidableEq

/-- One decoded per-element result from the service response. The echoed
metadata fields are optional (the decoded JSON need not repeat them);
analysis is None when the result lacks the analysis key, which the
aggregation loop tests at line 291. -/
structure ElementResult where
  tab_index : Option Nat
  element_tag : Option String
  analysis : Option AnalysisResult
deriving DecidableEq

/-- Outcome of the service call and response parsing inside
analyze_focus_batch, one constructor per code path:
serviceError for the except around client.messages.create
(lines 459 to 462); noJsonObject for no opening brace found
(line 489); jsonDecodeError for json.loads raising (line 484);
missingElementsField for a decoded object without the elements key
(line 483); decoded for a successful decode, carrying the elements
list (line 481). -/
inductive AnalyzeOutcome where
  | serviceError
  | noJsonObject
  | jsonDecodeError
  | missingElementsField
  | decoded (elements : List ElementResult)
deriving DecidableEq

/-- analyze_focus_batch (lines 313 to 494) at the decoded level: the
request building is effect-free and every failure path of the call and
of the parse returns None; only a successful decode with an elements
field returns the decoded list. classify is the external service
composed with the parse, as a function of the batch. -/
def analyze_focus_batch (classify : List FocusRecord → AnalyzeOutcome)
    (focus_batch : List FocusRecord) : Option (List ElementResult) :=
  match classify focus_batch with
  | .decoded elements => some elements
  | _ => none

/-- The batch loop of process_focus_results (lines 273 to 283): each
batch in order contributes its analyzed results; a None return (or an
exception, caught by the surrounding except) and an empty list (falsy
in the if analyzed_batch test) contribute nothing, and the loop
continues with the next batch. -/
def collectAnalyzed (classify : List FocusRecord → AnalyzeOutcome) :
    List (List FocusRecord) → List ElementResult
  | [] => []
  | batch :: rest =>
    (match analyze_focus_batch classify batch with
     | some analyzed_batch => if analyzed_batch.isEmpty then [] else analyzed_batch
     | none => []) ++ collectAnalyzed classify rest

/-- The focus_visible judgement of the categorisation loop (line 295):
result.analysis.get focus_visible with default False; False as well when
there is no analysis (that case is skipped before the test). -/
def focusVisibleFlag (result : ElementResult) : Bool :=
  match result.analysis with
  | some a => a.focus_visible.getD false
  | none => false

/-- A result the loop appends to visible_focus_elements: it has the
analysis key and its judgement is truthy. -/
def isVisibleResult (result : ElementResult) : Bool :=
  result.analysis.isSome && focusVisibleFlag result

/-- A result the loop appends to invisible_focus_elements: it has the
analysis key and its judgement is falsy. -/
def isInvisibleResult (result : ElementResult) : Bool :=
  result.analysis.isSome && !focusVisibleFlag result

/-- One step of the categorisation loop (lines 289 to 298): a result
without the analysis key is skipped with a warning; otherwise it is
appended to the visible or the invisible list by its judgement. -/
def categorizeStep (acc : List ElementResult × List ElementResult)
    (result : ElementResult) : List ElementResult × List ElementResult :=
  match result.analysis with
  | none => acc
  | some a =>
    if a.focus_visible.getD false then (acc.1 ++ [result], acc.2)
    else (acc.1, acc.2 ++ [result])

/-- The categorisation loop over all_analyzed_results, producing
(visible_focus_elements, invisible_focus_elements). -/
def categorize (results : List ElementResult) : List ElementResult × List ElementResult :=
  results.foldl categorizeStep ([], [])

/-- The final_report dictionary (lines 301 to 309). -/
structure ComplianceReport where
  url : String
  total_focusable_elements : Nat
  visible_focus_elements : Nat
  invisible_focus_elements : Nat
  visible_elements : List ElementResult
  invisible_elements : List ElementResult
  wcag_2_4_7_compliant : Bool
deriving DecidableEq

/-- Building the final report from all_analyzed_results (lines 285 to
311): counts over the categorised lists, compliance exactly when the
invisible list is empty. -/
def buildReport (url : String) (all_analyzed_results : List ElementResult) : ComplianceReport :=
  let c := categorize all_analyzed_results
  { url := url
    total_focusable_elements := all_analyzed_results.length
    visible_focus_elements := c.1.length
    invisible_focus_elements := c.2.length
    visible_elements := c.1
    invisible_elements := c.2
    wcag_2_4_7_compliant := c.2.length == 0 }

/-- process_focus_results (lines 263 to 311): partition into batches,
collect the analyzed results batch by batch, categorise and report.
The initial_screenshot argument of the source is threaded to
analyze_focus_batch but never used there, so it is omitted. -/
def process_focus_results (classify : List FocusRecord → AnalyzeOutcome)
    (focus_results : List FocusRecord) (url : String) : ComplianceReport :=
  buildReport url (collectAnalyzed classify (makeBatches focus_results))

/-- Ledger of operating-system resources created by the checker: temp
directories currently on disk and live browser sessions, with a counter
supplying fresh identifiers. -/
structure DriverResources where
  tempDirs : List Nat
  drivers : List Nat
  nextId : Nat
deriving DecidableEq

/-- Which external operations fail in a given run: chromeStartFails
models webdriver.Chrome raising inside setup_driver (for example the
DevToolsActivePort error the caller diagnoses); bodyFails models an
exception escaping the try body of check_focus_visibility (navigation,
page-load wait, attribute read). -/
structure RunEnv where
  chromeStartFails : Bool
  bodyFails : Bool
deriving DecidableEq

/-- tempfile.mkdtemp (line 77): creates a fresh temp directory and
returns its identifier. -/
def mkdtemp (s : DriverResources) : Nat × DriverResources :=
  (s.nextId,
   { tempDirs := s.nextId :: s.tempDirs, drivers := s.drivers, nextId := s.nextId + 1 })

/-- webdriver.Chrome (line 85): starts a browser session, or raises when
the environment says so; the resource state is returned on both paths. -/
def chromeStart (env : RunEnv) (s : DriverResources) :
    Except String Nat × DriverResources :=
  if env.chromeStartFails then
    (.error "DevToolsActivePort file does not exist", s)
  else
    (.ok s.nextId,
     { tempDirs := s.tempDirs, drivers := s.nextId :: s.drivers, nextId := s.nextId + 1 })

/-- setup_driver (lines 46 to 86): make the temp directory first, then
start the browser; a raise from the browser start propagates after the
directory was already created, and only a fully successful setup returns
the pair (driver, temp_dir). -/
def setup_driver (env : RunEnv) (s : DriverResources) :
    Except String (Nat × Nat) × DriverResources :=
  let td := mkdtemp s
  match chromeStart env td.2 with
  | (.error e, s1) => (.error e, s1)
  | (.ok d, s1) => (.ok (d, td.1), s1)

/-- driver.quit (line 232): the session is closed and leaves the
ledger. -/
def driver_quit (d : Nat) (s : DriverResources) : DriverResources :=
  { tempDirs := s.tempDirs, drivers := s.drivers.erase d, nextId := s.nextId }

/-- cleanup_temp_dir (lines 88 to 97): the directory is removed from
disk. -/
def cleanup_temp_dir (t : Nat) (s : DriverResources) : DriverResources :=
  { tempDirs := s.tempDirs.erase t, drivers := s.drivers, nextId := s.nextId }

/-- check_focus_visibility (lines 121 to 233) at the resource level: the
setup try/except re-raises a setup failure (no cleanup there, since the
caller never received the temp directory); on successful setup the try
body either raises (bodyFails) or runs the traversal loop and
process_focus_results, and the finally clause quits the driver and
removes the temp directory on both of those paths before the outcome is
returned. -/
def check_focus_visibility (env : RunEnv) (page : Nat → StepObservation)
    (classify : List FocusRecord → AnalyzeOutcome) (url : String)
    (s : DriverResources) : Except String ComplianceReport × DriverResources :=
  match setup_driver env s with
  | (.error e, s1) => (.error e, s1)
  | (.ok dt, s1) =>
    let body : Except String ComplianceReport :=
      if env.bodyFails then .error "traversal error"
      else .ok (process_focus_results classify (check_focus_visibility_loop page) url)
    let s2 := cleanup_temp_dir dt.2 (driver_quit dt.1 s1)
    (body, s2)

theorem makeBatches_cons (xs : List FocusRecord) (h : xs ≠ []) :
    makeBatches xs = xs.take batch_size :: makeBatches (xs.drop batch_size) := by
  have hn : 0 < xs.length := List.length_pos.mpr h
  have h1 : (xs.length + batch_size - 1) / batch_size
      = (xs.length - 1) / batch_size + 1 := by
    simp only [batch_size]; omega
  have h2 : ((xs.drop batch_size).length + batch_size - 1) / batch_size
      = (xs.length - 1) / batch_size := by
    simp only [batch_size, List.length_drop]; omega
  simp only [makeBatches, h1, h2, List.range_succ_eq_map, List.map_cons, List.map_map]
  refine congrArg₂ List.cons ?_ ?_
  · simp
  · refine List.map_congr_left ?_
    intro k _
    simp only [Function.comp_apply, List.drop_drop]
    have : batch_size * Nat.succ k = batch_size + batch_size * k := by
      simp only [Nat.succ_eq_add_one]; ring
    rw [this]

theorem makeBatches_join (xs : List FocusRecord) : (makeBatches xs).flatten = xs := by
  by_cases h : xs = []
  · subst h; simp [makeBatches, batch_size]
  · rw [makeBatches_cons xs h]
    simp only [List.flatten_cons]
    rw [makeBatches_join (xs.drop batch_size)]
    exact List.take_append_drop _ _
termination_by xs.length
decreasing_by
  simp only [List.length_drop, batch_size]
  have := List.length_pos.mpr h
  omega

/-- C4: for an input sequence of length N the batch partitioner yields
ceil(N / 5) contiguous batches in order, the first floor(N / 5) of size
exactly 5, and concatenating the batches reconstructs the input exactly,
so no record is duplicated, dropped or reordered. -/
theorem makeBatches_spec (xs : List FocusRecord) :
    (makeBatches xs).length = (xs.length + batch_size - 1) / batch_size ∧
    (∀ b ∈ (makeBatches xs).take (xs.length / batch_size), b.length = batch_size) ∧
    (makeBatches xs).flatten = xs := by
  refine ⟨by simp [makeBatches], ?_, makeBatches_join xs⟩
  intro b hb
  simp only [makeBatches, ← List.map_take, List.take_range] at hb
  have hmin : xs.length / batch_size ⊓ ((xs.length + batch_size - 1) / batch_size)
      = xs.length / batch_size := by
    simp only [batch_size]; omega
  rw [hmin] at hb
  obtain ⟨k, hk, rfl⟩ := List.mem_map.mp hb
  rw [List.mem_range] at hk
  simp only [List.length_take, List.length_drop, batch_size] at hk ⊢
  omega

/-- A concrete focus record used by the evaluation theorems. -/
def sampleRecord : FocusRecord :=
  { tab_index := 0, element_tag := "A", element_type := "", element_id := "",
    element_class := "", element_text := "Home", element_role := "",
    element_xpath := "/html/body/a", before_tab_screenshot := "s0",
    after_tab_screenshot := "s1" }

theorem makeBatches_spec_witness :
    List.replicate batch_size sampleRecord
        ∈ (makeBatches (List.replicate 7 sampleRecord)).take
            ((List.replicate 7 sampleRecord).length / batch_size) ∧
    (List.replicate batch_size sampleRecord).length = batch_size :=
  ⟨by decide,
   (makeBatches_spec (List.replicate 7 sampleRecord)).2.1
     (List.replicate batch_size sampleRecord) (by decide)⟩

theorem focusTabLoopAux_length_indices (page : Nat → StepObservation) :
    ∀ (fuel t : Nat) (seen : List String) (acc : List FocusRecord),
      acc.map (fun r => r.tab_index) = List.range acc.length → t = acc.length →
      (focusTabLoopAux page fuel t seen acc).length ≤ acc.length + fuel ∧
      (focusTabLoopAux page fuel t seen acc).map (fun r => r.tab_index)
        = List.range (focusTabLoopAux page fuel t seen acc).length := by
  intro fuel
  induction fuel with
  | zero =>
    intro t seen acc hmap ht
    simp only [focusTabLoopAux]
    exact ⟨Nat.le_add_right _ _, by rw [hmap]⟩
  | succ fuel ih =>
    intro t seen acc hmap ht
    simp only [focusTabLoopAux]
    split
    · exact ⟨Nat.le_add_right _ _, by rw [hmap]⟩
    · have hmap' : (acc ++ [recordAt t (page t)]).map (fun r => r.tab_index)
          = List.range (acc ++ [recordAt t (page t)]).length := by
        simp [List.map_append, hmap, recordAt, List.range_succ, ht]
      have hlen : t + 1 = (acc ++ [recordAt t (page t)]).length := by
        simp [ht]
      have h := ih (t + 1) (element_signature (page t) :: seen)
        (acc ++ [recordAt t (page t)]) hmap' hlen
      refine ⟨?_, h.2⟩
      have h1 := h.1
      simp only [List.length_append, List.length_singleton] at h1
      omega

/-- C5: every traversal returns at most 100 focus records (the hard cap
max_tabs bounds the number of appended Tab steps), and the tab_index of
each record equals its 0-based position in the returned sequence. -/
theorem check_focus_visibility_loop_spec (page : Nat → StepObservation) :
    (check_focus_visibility_loop page).length ≤ 100 ∧
    (check_focus_visibility_loop page).map (fun r => r.tab_index)
      = List.range (check_focus_visibility_loop page).length := by
  have h := focusTabLoopAux_length_indices page max_tabs 0 [] [] (by simp) (by simp)
  simpa [check_focus_visibility_loop, max_tabs] using h

/-- The element signature observed at a given step of the traversal. -/
def sigAt (page : Nat → StepObservation) (i : Nat) : String :=
  element_signature (page i)

theorem focusTabLoopAux_cycle (page : Nat → StepObservation) (k : Nat)
    (hk : k < max_tabs)
    (hdist : ∀ i < k, ∀ j < k, sigAt page i = sigAt page j → i = j)
    (i0 : Nat) (hi0 : i0 < k) (hrep : sigAt page k = sigAt page i0) :
    ∀ (d m : Nat) (seen : List String), m + d = k →
      (∀ s, s ∈ seen ↔ ∃ i < m, sigAt page i = s) →
      focusTabLoopAux page (max_tabs - m) m seen
          ((List.range m).map (fun i => recordAt i (page i)))
        = (List.range k).map (fun i => recordAt i (page i)) := by
  intro d
  induction d with
  | zero =>
    intro m seen hm hseen
    have hmk : m = k := by omega
    subst hmk
    have hfuel : max_tabs - m = (max_tabs - m - 1) + 1 := by omega
    rw [hfuel]
    simp only [focusTabLoopAux]
    have hmem : element_signature (page m) ∈ seen :=
      (hseen _).mpr ⟨i0, hi0, hrep.symm⟩
    rw [if_pos hmem]
  | succ d ih =>
    intro m seen hm hseen
    have hmk : m < k := by omega
    have hfuel : max_tabs - m = (max_tabs - (m + 1)) + 1 := by omega
    rw [hfuel]
    simp only [focusTabLoopAux]
    have hnot : element_signature (page m) ∉ seen := by
      intro hmem
      obtain ⟨i, hi, hsig⟩ := (hseen _).mp hmem
      have := hdist i (lt_trans hi hmk) m hmk hsig
      omega
    rw [if_neg hnot]
    have hacc : (List.range m).map (fun i => recordAt i (page i))
          ++ [recordAt m (page m)]
        = (List.range (m + 1)).map (fun i => recordAt i (page i)) := by
      simp [List.range_succ]
    rw [hacc]
    refine ih (m + 1) (element_signature (page m) :: seen) (by omega) ?_
    intro s
    simp only [List.mem_cons, hseen s]
    constructor
    · rintro (rfl | ⟨i, hi, hs⟩)
      · exact ⟨m, Nat.lt_succ_self m, rfl⟩
      · exact ⟨i, by omega, hs⟩
    · rintro ⟨i, hi, hs⟩
      rcases Nat.lt_succ_iff_lt_or_eq.mp hi with h | rfl
      · exact Or.inr ⟨i, h, hs⟩
      · exact Or.inl hs.symm
/-- C3: when the first repeated element signature occurs at step k (the
signatures of steps 0 .. k-1 are pairwise distinct and the signature of
step k equals that of an earlier step i0), the traversal stops at that
step without appending the repeated element: the result is exactly the
records of steps 0 .. k-1, so a focus order A, B, C, A, ... yields
exactly 3 records. -/
theorem cycle_detection (page : Nat → StepObservation) (k : Nat)
    (hk : k < max_tabs)
    (hdist : ∀ i < k, ∀ j < k, sigAt page i = sigAt page j → i = j)
    (i0 : Nat) (hi0 : i0 < k) (hrep : sigAt page k = sigAt page i0) :
    check_focus_visibility_loop page
      = (List.range k).map (fun i => recordAt i (page i)) ∧
    (check_focus_visibility_loop page).length = k := by
  have h := focusTabLoopAux_cycle page k hk hdist i0 hi0 hrep k 0 []
    (by omega) (by intro s; simp)
  have h0 : check_focus_visibility_loop page
      = (List.range k).map (fun i => recordAt i (page i)) := by
    simpa [check_focus_visibility_loop, max_tabs] using h
  exact ⟨h0, by rw [h0]; simp⟩

/-- A page whose focus order cycles with period 3: the signatures repeat
A, B, C, A, ... via the element id. -/
def cyclePage : Nat → StepObservation := fun i =>
  { element_tag := "A", element_type := "", element_id := toString (i % 3),
    element_class := "", element_text := "", element_role := "",
    element_xpath := none, before_shot := "b", after_shot := "a" }

theorem cycle_detection_witness :
    3 < max_tabs ∧
    (∀ i < 3, ∀ j < 3, sigAt cyclePage i = sigAt cyclePage j → i = j) ∧
    0 < 3 ∧ sigAt cyclePage 3 = sigAt cyclePage 0 ∧
    (check_focus_visibility_loop cyclePage).length = 3 :=
  ⟨by decide, by decide, by decide, by decide,
   (cycle_detection cyclePage 3 (by decide) (by decide) 0 (by decide) (by decide)).2⟩

theorem foldl_categorizeStep (l : List ElementResult) :
    ∀ v i : List ElementResult,
      l.foldl categorizeStep (v, i)
        = (v ++ l.filter isVisibleResult, i ++ l.filter isInvisibleResult) := by
  induction l with
  | nil => intro v i; simp
  | cons r rest ih =>
    intro v i
    simp only [List.foldl_cons]
    rcases hr : r.analysis with _ | a
    · have h1 : isVisibleResult r = false := by
        simp [isVisibleResult, hr]
      have h2 : isInvisibleResult r = false := by
        simp [isInvisibleResult, hr]
      simp only [categorizeStep, hr, List.filter_cons, h1, h2]
      simpa using ih v i
    · cases hfv : a.focus_visible.getD false
      · have h1 : isVisibleResult r = false := by
          simp [isVisibleResult, focusVisibleFlag, hr, hfv]
        have h2 : isInvisibleResult r = true := by
          simp [isInvisibleResult, focusVisibleFlag, hr, hfv]
        simp only [categorizeStep, hr, hfv, List.filter_cons, h1, h2, if_neg, if_pos,
          Bool.false_eq_true, ite_false, ite_true]
        rw [ih v (i ++ [r])]
        simp
      · have h1 : isVisibleResult r = true := by
          simp [isVisibleResult, focusVisibleFlag, hr, hfv]
        have h2 : isInvisibleResult r = false := by
          simp [isInvisibleResult, focusVisibleFlag, hr, hfv]
        simp only [categorizeStep, hr, hfv, List.filter_cons, h1, h2, ite_true,
          Bool.false_eq_true, ite_false]
        rw [ih (v ++ [r]) i]
        simp

theorem categorize_eq_filter (l : List ElementResult) :
    categorize l = (l.filter isVisibleResult, l.filter isInvisibleResult) := by
  simpa [categorize] using foldl_categorizeStep l [] []

theorem buildReport_fields (url : String) (l : List ElementResult) :
    (buildReport url l).total_focusable_elements = l.length ∧
    (buildReport url l).visible_elements = l.filter isVisibleResult ∧
    (buildReport url l).invisible_elements = l.filter isInvisibleResult ∧
    (buildReport url l).visible_focus_elements = (l.filter isVisibleResult).length ∧
    (buildReport url l).invisible_focus_elements = (l.filter isInvisibleResult).length ∧
    (buildReport url l).wcag_2_4_7_compliant
      = ((l.filter isInvisibleResult).length == 0) := by
  simp [buildReport, categorize_eq_filter]

theorem length_filter_partition (l : List ElementResult) :
    l.length = (l.filter isVisibleResult).length + (l.filter isInvisibleResult).length
      + (l.filter (fun r => r.analysis.isNone)).length := by
  induction l with
  | nil => simp
  | cons r rest ih =>
    rcases hr : r.analysis with _ | a
    · have h1 : isVisibleResult r = false := by simp [isVisibleResult, hr]
      have h2 : isInvisibleResult r = false := by simp [isInvisibleResult, hr]
      have h3 : r.analysis.isNone = true := by simp [hr]
      simp only [List.filter_cons, h1, h2, h3, List.length_cons, Bool.false_eq_true,
        ite_false, ite_true]
      omega
    · have h3 : r.analysis.isNone = false := by simp [hr]
      cases hfv : focusVisibleFlag r
      · have h1 : isVisibleResult r = false := by simp [isVisibleResult, hfv]
        have h2 : isInvisibleResult r = true := by simp [isInvisibleResult, hr, hfv]
        simp only [List.filter_cons, h1, h2, h3, List.length_cons, Bool.false_eq_true,
          ite_false, ite_true]
        omega
      · have h1 : isVisibleResult r = true := by simp [isVisibleResult, hr, hfv]
        have h2 : isInvisibleResult r = false := by simp [isInvisibleResult, hfv]
        simp only [List.filter_cons, h1, h2, h3, List.length_cons, Bool.false_eq_true,
          ite_false, ite_true]
        omega

theorem collectAnalyzed_cons_skip (classify : List FocusRecord → AnalyzeOutcome)
    (batch : List FocusRecord) (rest : List (List FocusRecord))
    (h : analyze_focus_batch classify batch = none) :
    collectAnalyzed classify (batch :: rest) = collectAnalyzed classify rest := by
  simp [collectAnalyzed, h]

theorem collectAnalyzed_cons_decoded (classify : List FocusRecord → AnalyzeOutcome)
    (batch : List FocusRecord) (rest : List (List FocusRecord))
    (es : List ElementResult) (h : classify batch = .decoded es) :
    collectAnalyzed classify (batch :: rest)
      = (if es.isEmpty then [] else es) ++ collectAnalyzed classify rest := by
  simp [collectAnalyzed, analyze_focus_batch, h]

theorem collectAnalyzed_eraseIdx (classify : List FocusRecord → AnalyzeOutcome) :
    ∀ (bs : List (List FocusRecord)) (i : Nat) (h : i < bs.length),
      analyze_focus_batch classify (bs.get ⟨i, h⟩) = none →
      collectAnalyzed classify bs = collectAnalyzed classify (bs.eraseIdx i) := by
  intro bs
  induction bs with
  | nil => intro i h; simp at h
  | cons b rest ih =>
    intro i h hnone
    cases i with
    | zero =>
      simp only [List.eraseIdx_cons_zero]
      exact collectAnalyzed_cons_skip classify b rest hnone
    | succ i =>
      simp only [List.eraseIdx_cons_succ]
      have hi : i < rest.length := by
        simpa using h
      simp only [collectAnalyzed]
      rw [ih i hi hnone]

/-- C2: a batch whose classification call raises or whose response is not
parseable contributes zero results; the run keeps going and the final
report equals the one aggregated over the other batches only. -/
theorem failed_batch_skipped (classify : List FocusRecord → AnalyzeOutcome)
    (rs : List FocusRecord) (url : String) (i : Nat)
    (h : i < (makeBatches rs).length)
    (hfail : classify ((makeBatches rs).get ⟨i, h⟩) = .serviceError ∨
             classify ((makeBatches rs).get ⟨i, h⟩) = .noJsonObject ∨
             classify ((makeBatches rs).get ⟨i, h⟩) = .jsonDecodeError) :
    process_focus_results classify rs url
      = buildReport url (collectAnalyzed classify ((makeBatches rs).eraseIdx i)) := by
  have hnone : analyze_focus_batch classify ((makeBatches rs).get ⟨i, h⟩) = none := by
    rcases hfail with h1 | h1 | h1 <;> rw [List.get_eq_getElem] at h1 <;>
      simp [analyze_focus_batch, h1]
  rw [process_focus_results,
    collectAnalyzed_eraseIdx classify (makeBatches rs) i h hnone]

/-- A classification oracle for which every call raises. -/
def alwaysFails : List FocusRecord → AnalyzeOutcome := fun _ => .serviceError

theorem failed_batch_skipped_witness :
    0 < (makeBatches [sampleRecord]).length ∧
    alwaysFails ((makeBatches [sampleRecord]).get ⟨0, by decide⟩) = .serviceError ∧
    process_focus_results alwaysFails [sampleRecord] "https://example.org"
      = buildReport "https://example.org"
          (collectAnalyzed alwaysFails ((makeBatches [sampleRecord]).eraseIdx 0)) :=
  ⟨by decide, by decide,
   failed_batch_skipped alwaysFails [sampleRecord] "https://example.org" 0 (by decide)
     (Or.inl (by decide))⟩

/-- A decoded per-element result that lacks the analysis key. -/
def incompleteResult : ElementResult :=
  { tab_index := some 0, element_tag := some "A", analysis := none }

/-- An analysis object judging focus visible. -/
def visibleAnalysis : AnalysisResult :=
  { focus_visible := some true,
    focus_indicator_description := some "blue outline",
    compliance_techniques := some ["G165"],
    recommendation := none }

/-- An analysis object judging focus not visible. -/
def invisibleAnalysis : AnalysisResult :=
  { focus_visible := some false,
    focus_indicator_description := some "no visible change",
    compliance_techniques := none,
    recommendation := some "add an outline" }

/-- A decoded per-element result judged visible. -/
def visibleResult : ElementResult :=
  { tab_index := some 0, element_tag := some "A", analysis := some visibleAnalysis }

/-- A decoded per-element result judged not visible. -/
def invisibleResult : ElementResult :=
  { tab_index := some 1, element_tag := some "BUTTON", analysis := some invisibleAnalysis }

/-- An oracle whose only decoded entry lacks the analysis key. -/
def incompleteOnly : List FocusRecord → AnalyzeOutcome := fun _ =>
  .decoded [incompleteResult]

/-- C1 (counterexample): a decoded classifier input whose single entry
lacks the analysis judgement key yields a report with
total_focusable_elements 1 but visible and invisible counts both 0, so
the claimed invariant total = visible + invisible fails on it. -/
theorem report_count_mismatch :
    (process_focus_results incompleteOnly [sampleRecord] "https://example.org").total_focusable_elements = 1 ∧
    (process_focus_results incompleteOnly [sampleRecord] "https://example.org").visible_focus_elements = 0 ∧
    (process_focus_results incompleteOnly [sampleRecord] "https://example.org").invisible_focus_elements = 0 ∧
    (process_focus_results incompleteOnly [sampleRecord] "https://example.org").total_focusable_elements
      ≠ (process_focus_results incompleteOnly [sampleRecord] "https://example.org").visible_focus_elements
        + (process_focus_results incompleteOnly [sampleRecord] "https://example.org").invisible_focus_elements := by
  decide

/-- C1 (amended): the total classified count equals the visible count
plus the invisible count plus the number of aggregated entries lacking
the analysis judgement key; in particular the claimed invariant
total = visible + invisible holds exactly for decoded inputs in which
every aggregated entry carries the analysis key. -/
theorem report_count_accounting (classify : List FocusRecord → AnalyzeOutcome)
    (rs : List FocusRecord) (url : String) :
    (process_focus_results classify rs url).total_focusable_elements
      = (process_focus_results classify rs url).visible_focus_elements
        + (process_focus_results classify rs url).invisible_focus_elements
        + ((collectAnalyzed classify (makeBatches rs)).filter
            (fun r => r.analysis.isNone)).length ∧
    ((∀ r ∈ collectAnalyzed classify (makeBatches rs), r.analysis.isSome) →
      (process_focus_results classify rs url).total_focusable_elements
        = (process_focus_results classify rs url).visible_focus_elements
          + (process_focus_results classify rs url).invisible_focus_elements) := by
  have hb := buildReport_fields url (collectAnalyzed classify (makeBatches rs))
  have hmain : (process_focus_results classify rs url).total_focusable_elements
      = (process_focus_results classify rs url).visible_focus_elements
        + (process_focus_results classify rs url).invisible_focus_elements
        + ((collectAnalyzed classify (makeBatches rs)).filter
            (fun r => r.analysis.isNone)).length := by
    rw [process_focus_results, hb.1, hb.2.2.2.1, hb.2.2.2.2.1]
    exact length_filter_partition _
  refine ⟨hmain, ?_⟩
  intro hall
  have hnil : (collectAnalyzed classify (makeBatches rs)).filter
      (fun r => r.analysis.isNone) = [] := by
    rw [List.filter_eq_nil_iff]
    intro a ha
    have hs := hall a ha
    simp only [Option.isNone_iff_eq_none]
    intro hn
    rw [hn] at hs
    simp at hs
  rw [hnil] at hmain
  simpa using hmain

/-- An oracle returning one well-formed visible judgement. -/
def oneVisible : List FocusRecord → AnalyzeOutcome := fun _ =>
  .decoded [visibleResult]

theorem report_count_accounting_witness :
    (∀ r ∈ collectAnalyzed oneVisible (makeBatches [sampleRecord]), r.analysis.isSome) ∧
    (process_focus_results oneVisible [sampleRecord] "https://example.org").total_focusable_elements
      = (process_focus_results oneVisible [sampleRecord] "https://example.org").visible_focus_elements
        + (process_focus_results oneVisible [sampleRecord] "https://example.org").invisible_focus_elements :=
  ⟨by decide,
   (report_count_accounting oneVisible [sampleRecord] "https://example.org").2 (by decide)⟩

/-- C6: a decoded batch response containing one well-formed element
result and one result lacking the analysis judgement key yields exactly
one aggregated result: the incomplete entry is dropped from both the
visible and the invisible set, while its sibling in the same batch is
classified by its own judgement, unaffected. -/
theorem incomplete_sibling_filtered (classify : List FocusRecord → AnalyzeOutcome)
    (rs : List FocusRecord) (url : String) (b : List FocusRecord)
    (e_ok e_bad : ElementResult) (a : AnalysisResult)
    (hb : makeBatches rs = [b])
    (hc : classify b = .decoded [e_ok, e_bad] ∨ classify b = .decoded [e_bad, e_ok])
    (hok : e_ok.analysis = some a)
    (hbad : e_bad.analysis = none) :
    (process_focus_results classify rs url).visible_focus_elements
      + (process_focus_results classify rs url).invisible_focus_elements = 1 ∧
    e_bad ∉ (process_focus_results classify rs url).visible_elements ∧
    e_bad ∉ (process_focus_results classify rs url).invisible_elements ∧
    (a.focus_visible.getD false = true →
      (process_focus_results classify rs url).visible_elements = [e_ok] ∧
      (process_focus_results classify rs url).invisible_elements = []) ∧
    (a.focus_visible.getD false = false →
      (process_focus_results classify rs url).invisible_elements = [e_ok] ∧
      (process_focus_results classify rs url).visible_elements = []) := by
  have hne : e_bad ≠ e_ok := by
    intro h
    rw [h, hok] at hbad
    simp at hbad
  have hcol : collectAnalyzed classify (makeBatches rs) = [e_ok, e_bad]
      ∨ collectAnalyzed classify (makeBatches rs) = [e_bad, e_ok] := by
    rcases hc with h | h
    · left
      rw [hb, collectAnalyzed_cons_decoded classify b [] _ h]
      simp [collectAnalyzed]
    · right
      rw [hb, collectAnalyzed_cons_decoded classify b [] _ h]
      simp [collectAnalyzed]
  have hb1 : isVisibleResult e_bad = false := by simp [isVisibleResult, hbad]
  have hb2 : isInvisibleResult e_bad = false := by simp [isInvisibleResult, hbad]
  have hv : isVisibleResult e_ok = a.focus_visible.getD false := by
    simp [isVisibleResult, focusVisibleFlag, hok]
  have hiv : isInvisibleResult e_ok = !(a.focus_visible.getD false) := by
    simp [isInvisibleResult, focusVisibleFlag, hok]
  rw [process_focus_results]
  rcases hcol with hcol | hcol <;> rw [hcol] <;>
    cases hfv : a.focus_visible.getD false <;>
      simp_all [buildReport, categorize_eq_filter, List.filter_cons, hne]

/-- An oracle decoding to one well-formed and one incomplete result. -/
def mixedBatch : List FocusRecord → AnalyzeOutcome := fun _ =>
  .decoded [visibleResult, incompleteResult]

theorem incomplete_sibling_filtered_witness :
    makeBatches [sampleRecord] = [[sampleRecord]] ∧
    mixedBatch [sampleRecord] = .decoded [visibleResult, incompleteResult] ∧
    visibleResult.analysis = some visibleAnalysis ∧
    incompleteResult.analysis = none ∧
    (process_focus_results mixedBatch [sampleRecord] "https://example.org").visible_focus_elements
      + (process_focus_results mixedBatch [sampleRecord] "https://example.org").invisible_focus_elements
      = 1 :=
  ⟨by decide, by decide, by decide, by decide,
   (incomplete_sibling_filtered mixedBatch [sampleRecord] "https://example.org"
      [sampleRecord] visibleResult incompleteResult visibleAnalysis (by decide)
      (Or.inl (by decide)) (by decide) (by decide)).1⟩

/-- C7 (counterexample): a decoded batch response whose per-element list
contains a result lacking the judgement field is not discarded as the
claim states: the well-formed sibling is still aggregated, so the batch
contributes a nonzero number of results (total 2, one visible) instead
of zero. -/
theorem batch_with_incomplete_entry_not_discarded :
    (process_focus_results mixedBatch [sampleRecord] "https://example.org").total_focusable_elements = 2 ∧
    (process_focus_results mixedBatch [sampleRecord] "https://example.org").visible_focus_elements = 1 ∧
    (process_focus_results mixedBatch [sampleRecord] "https://example.org").total_focusable_elements ≠ 0 := by
  decide

theorem mem_collectAnalyzed_of_decoded (classify : List FocusRecord → AnalyzeOutcome) :
    ∀ (bs : List (List FocusRecord)) (b : List FocusRecord) (es : List ElementResult),
      b ∈ bs → classify b = .decoded es → ∀ e ∈ es, e ∈ collectAnalyzed classify bs := by
  intro bs
  induction bs with
  | nil =>
    intro b es hb
    simp at hb
  | cons hd rest ih =>
    intro b es hb hdec e he
    rcases List.mem_cons.mp hb with rfl | hb2
    · rw [collectAnalyzed_cons_decoded classify b rest es hdec]
      have hne : es ≠ [] := List.ne_nil_of_mem he
      rw [if_neg (by simp [List.isEmpty_iff, hne])]
      exact List.mem_append_left _ he
    · have := ih b es hb2 hdec e he
      simp only [collectAnalyzed]
      exact List.mem_append_right _ this

/-- C7 (amended): a decoded batch response whose per-element list
contains a result lacking the analysis judgement field is not discarded:
every decoded result of the batch is carried into aggregation, results
lacking the field are dropped individually there (they reach neither the
visible nor the invisible set), and sibling results are classified by
their own judgement; processing continues with the other batches. -/
theorem incomplete_result_dropped_not_batch (classify : List FocusRecord → AnalyzeOutcome)
    (rs : List FocusRecord) (url : String) (b : List FocusRecord)
    (es : List ElementResult)
    (hb : b ∈ makeBatches rs) (hdec : classify b = .decoded es) :
    ∀ e ∈ es,
      e ∈ collectAnalyzed classify (makeBatches rs) ∧
      (e.analysis = none →
        e ∉ (process_focus_results classify rs url).visible_elements ∧
        e ∉ (process_focus_results classify rs url).invisible_elements) ∧
      (∀ a, e.analysis = some a →
        (a.focus_visible.getD false = true →
          e ∈ (process_focus_results classify rs url).visible_elements) ∧
        (a.focus_visible.getD false = false →
          e ∈ (process_focus_results classify rs url).invisible_elements)) := by
  intro e he
  have hmem := mem_collectAnalyzed_of_decoded classify (makeBatches rs) b es hb hdec e he
  have hrep := buildReport_fields url (collectAnalyzed classify (makeBatches rs))
  have hvis : (process_focus_results classify rs url).visible_elements
      = (collectAnalyzed classify (makeBatches rs)).filter isVisibleResult := by
    rw [process_focus_results]
    exact hrep.2.1
  have hinv : (process_focus_results classify rs url).invisible_elements
      = (collectAnalyzed classify (makeBatches rs)).filter isInvisibleResult := by
    rw [process_focus_results]
    exact hrep.2.2.1
  refine ⟨hmem, ?_, ?_⟩
  · intro hnone
    constructor
    · rw [hvis]
      intro hcontra
      have := (List.mem_filter.mp hcontra).2
      simp [isVisibleResult, hnone] at this
    · rw [hinv]
      intro hcontra
      have := (List.mem_filter.mp hcontra).2
      simp [isInvisibleResult, hnone] at this
  · intro a ha
    constructor
    · intro hfv
      rw [hvis]
      exact List.mem_filter.mpr
        ⟨hmem, by simp [isVisibleResult, focusVisibleFlag, ha, hfv]⟩
    · intro hfv
      rw [hinv]
      exact List.mem_filter.mpr
        ⟨hmem, by simp [isInvisibleResult, focusVisibleFlag, ha, hfv]⟩

theorem incomplete_result_dropped_not_batch_witness :
    [sampleRecord] ∈ makeBatches [sampleRecord] ∧
    mixedBatch [sampleRecord] = .decoded [visibleResult, incompleteResult] ∧
    incompleteResult ∈ collectAnalyzed mixedBatch (makeBatches [sampleRecord]) :=
  ⟨by decide, by decide,
   (incomplete_result_dropped_not_batch mixedBatch [sampleRecord] "https://example.org"
      [sampleRecord] [visibleResult, incompleteResult] (by decide) (by decide)
      incompleteResult (by decide)).1⟩

/-- C8: the compliant flag is exactly the derived fact that the
invisible count is zero, and in the 7-element scenario (batches of 5 and
2) where the second batch fails entirely and the 5 classified elements
are all judged visible, the report is total 5, visible 5, invisible 0,
compliant true, computed over classified elements only. -/
theorem compliance_derived_and_partial_run (classify : List FocusRecord → AnalyzeOutcome)
    (rs : List FocusRecord) (url : String) (b0 b1 : List FocusRecord)
    (es : List ElementResult)
    (_h7 : rs.length = 7)
    (hb : makeBatches rs = [b0, b1])
    (h0 : classify b0 = .decoded es)
    (hlen : es.length = 5)
    (hvis : ∀ e ∈ es, e.analysis.map (fun a => a.focus_visible.getD false) = some true)
    (h1 : classify b1 = .serviceError) :
    (process_focus_results classify rs url).total_focusable_elements = 5 ∧
    (process_focus_results classify rs url).visible_focus_elements = 5 ∧
    (process_focus_results classify rs url).invisible_focus_elements = 0 ∧
    (process_focus_results classify rs url).wcag_2_4_7_compliant = true ∧
    (∀ (classify2 : List FocusRecord → AnalyzeOutcome) (rs2 : List FocusRecord)
        (url2 : String),
      (process_focus_results classify2 rs2 url2).wcag_2_4_7_compliant
        = ((process_focus_results classify2 rs2 url2).invisible_focus_elements == 0)) := by
  have hne : es ≠ [] := by
    intro h
    rw [h] at hlen
    simp at hlen
  have hcol : collectAnalyzed classify (makeBatches rs) = es := by
    rw [hb, collectAnalyzed_cons_decoded classify b0 [b1] es h0,
      collectAnalyzed_cons_skip classify b1 [] (by simp [analyze_focus_batch, h1])]
    rw [if_neg (by simp [List.isEmpty_iff, hne])]
    simp [collectAnalyzed]
  have hv : ∀ e ∈ es, isVisibleResult e = true := by
    intro e he
    have h := hvis e he
    rcases he2 : e.analysis with _ | a
    · rw [he2] at h
      simp at h
    · rw [he2] at h
      have hgd : a.focus_visible.getD false = true := by
        simpa using h
      simp [isVisibleResult, focusVisibleFlag, he2, hgd]
  have hfv : (collectAnalyzed classify (makeBatches rs)).filter isVisibleResult = es := by
    rw [hcol]
    exact List.filter_eq_self.mpr hv
  have hfi : (collectAnalyzed classify (makeBatches rs)).filter isInvisibleResult = [] := by
    rw [hcol]
    refine List.filter_eq_nil_iff.mpr ?_
    intro e he
    have h := hv e he
    simp only [isVisibleResult, Bool.and_eq_true] at h
    simp [isInvisibleResult, h.1, h.2]
  have hrep := buildReport_fields url (collectAnalyzed classify (makeBatches rs))
  refine ⟨?_, ?_, ?_, ?_, ?_⟩
  · rw [process_focus_results, hrep.1, hcol]
    exact hlen
  · rw [process_focus_results, hrep.2.2.2.1, hfv]
    exact hlen
  · rw [process_focus_results, hrep.2.2.2.2.1, hfi]
    rfl
  · rw [process_focus_results, hrep.2.2.2.2.2, hfi]
    rfl
  · intro classify2 rs2 url2
    rw [process_focus_results]
    rfl

/-- The scenario oracle: full batches of 5 come back all visible, any
other batch size makes the service call raise. -/
def scenarioClassify : List FocusRecord → AnalyzeOutcome := fun batch =>
  if batch.length == 5 then .decoded (List.replicate 5 visibleResult)
  else .serviceError

theorem compliance_derived_and_partial_run_witness :
    (List.replicate 7 sampleRecord).length = 7 ∧
    makeBatches (List.replicate 7 sampleRecord)
      = [List.replicate 5 sampleRecord, List.replicate 2 sampleRecord] ∧
    scenarioClassify (List.replicate 5 sampleRecord)
      = .decoded (List.replicate 5 visibleResult) ∧
    (List.replicate 5 visibleResult).length = 5 ∧
    (∀ e ∈ List.replicate 5 visibleResult,
      e.analysis.map (fun a => a.focus_visible.getD false) = some true) ∧
    scenarioClassify (List.replicate 2 sampleRecord) = .serviceError ∧
    (process_focus_results scenarioClassify (List.replicate 7 sampleRecord)
        "https://example.org").wcag_2_4_7_compliant = true :=
  ⟨by decide, by decide, by decide, by decide, by decide, by decide,
   (compliance_derived_and_partial_run scenarioClassify (List.replicate 7 sampleRecord)
      "https://example.org" (List.replicate 5 sampleRecord)
      (List.replicate 2 sampleRecord) (List.replicate 5 visibleResult)
      (by decide) (by decide) (by decide) (by decide) (by decide) (by decide)).2.2.2.1⟩

/-- C10: an aggregated element result carrying an analysis object whose
focus_visible judgement is missing or falsy is classified as invisible
(the judgement defaults to false instead of the element being dropped),
so such an entry makes the invisible count positive and the report
non-compliant on its own. -/
theorem missing_judgement_defaults_invisible (classify : List FocusRecord → AnalyzeOutcome)
    (rs : List FocusRecord) (url : String) (r : ElementResult) (a : AnalysisResult)
    (hmem : r ∈ collectAnalyzed classify (makeBatches rs))
    (ha : r.analysis = some a)
    (hfv : a.focus_visible.getD false = false) :
    r ∈ (process_focus_results classify rs url).invisible_elements ∧
    0 < (process_focus_results classify rs url).invisible_focus_elements ∧
    (process_focus_results classify rs url).wcag_2_4_7_compliant = false := by
  have hrep := buildReport_fields url (collectAnalyzed classify (makeBatches rs))
  have hinv : (process_focus_results classify rs url).invisible_elements
      = (collectAnalyzed classify (makeBatches rs)).filter isInvisibleResult := by
    rw [process_focus_results]
    exact hrep.2.2.1
  have hm : r ∈ (collectAnalyzed classify (makeBatches rs)).filter isInvisibleResult :=
    List.mem_filter.mpr ⟨hmem, by simp [isInvisibleResult, focusVisibleFlag, ha, hfv]⟩
  have hlen : 0 < ((collectAnalyzed classify (makeBatches rs)).filter
      isInvisibleResult).length := List.length_pos_of_mem hm
  refine ⟨by rw [hinv]; exact hm, ?_, ?_⟩
  · rw [process_focus_results, hrep.2.2.2.2.1]
    exact hlen
  · rw [process_focus_results, hrep.2.2.2.2.2]
    exact beq_eq_false_iff_ne.mpr (by omega)

/-- An analysis object with no focus_visible judgement at all. -/
def vagueAnalysis : AnalysisResult :=
  { focus_visible := none, focus_indicator_description := none,
    compliance_techniques := none, recommendation := none }

/-- A decoded result with an analysis object lacking the judgement. -/
def vagueResult : ElementResult :=
  { tab_index := some 0, element_tag := some "A", analysis := some vagueAnalysis }

/-- An oracle decoding to the single judgement-free result. -/
def oneVague : List FocusRecord → AnalyzeOutcome := fun _ => .decoded [vagueResult]

theorem missing_judgement_defaults_invisible_witness :
    vagueResult ∈ collectAnalyzed oneVague (makeBatches [sampleRecord]) ∧
    vagueResult.analysis = some vagueAnalysis ∧
    vagueAnalysis.focus_visible.getD false = false ∧
    (process_focus_results oneVague [sampleRecord] "https://example.org").wcag_2_4_7_compliant
      = false :=
  ⟨by decide, by decide, by decide,
   (missing_judgement_defaults_invisible oneVague [sampleRecord] "https://example.org"
      vagueResult vagueAnalysis (by decide) (by decide) (by decide)).2.2⟩

/-- A page with a single static element, used where the traversal result
does not matter. -/
def staticPage : Nat → StepObservation := fun _ =>
  { element_tag := "BODY", element_type := "", element_id := "",
    element_class := "", element_text := "", element_role := "",
    element_xpath := none, before_shot := "b", after_shot := "a" }

/-- C9 (counterexample): when the browser fails to start after the temp
directory was already created inside setup_driver, the run ends with
that directory still on disk, so a temporary directory created during
session setup does survive the run. -/
theorem temp_dir_leak_on_setup_failure :
    (check_focus_visibility { chromeStartFails := true, bodyFails := false }
        staticPage alwaysFails "https://example.org"
        { tempDirs := [], drivers := [], nextId := 0 }).2.tempDirs = [0] ∧
    (check_focus_visibility { chromeStartFails := true, bodyFails := false }
        staticPage alwaysFails "https://example.org"
        { tempDirs := [], drivers := [], nextId := 0 }).2.tempDirs ≠ [] := by
  decide

/-- C9 (amended): once setup_driver has succeeded, the browser session
and its temporary profile directory are unconditionally released on
every exit path of the run (normal completion as well as any exception
escaping the try body, which covers traversal and classification
failures); only when the browser fails to start after the temp directory
was created during setup does that directory survive. -/
theorem resources_released_after_setup (env : RunEnv) (page : Nat → StepObservation)
    (classify : List FocusRecord → AnalyzeOutcome) (url : String)
    (s : DriverResources)
    (hc : env.chromeStartFails = false)
    (ht : s.tempDirs = []) (hd : s.drivers = []) :
    (check_focus_visibility env page classify url s).2.tempDirs = [] ∧
    (check_focus_visibility env page classify url s).2.drivers = [] := by
  simp [check_focus_visibility, setup_driver, mkdtemp, chromeStart, hc,
    driver_quit, cleanup_temp_dir, ht, hd]

theorem resources_released_after_setup_witness :
    ({ chromeStartFails := false, bodyFails := true } : RunEnv).chromeStartFails = false ∧
    ({ tempDirs := [], drivers := [], nextId := 0 } : DriverResources).tempDirs = [] ∧
    ({ tempDirs := [], drivers := [], nextId := 0 } : DriverResources).drivers = [] ∧
    (check_focus_visibility { chromeStartFails := false, bodyFails := true }
        staticPage alwaysFails "https://example.org"
        { tempDirs := [], drivers := [], nextId := 0 }).2.tempDirs = [] ∧
    (check_focus_visibility { chromeStartFails := false, bodyFails := true }
        staticPage alwaysFails "https://example.org"
        { tempDirs := [], drivers := [], nextId := 0 }).2.drivers = [] := by
  refine ⟨rfl, rfl, rfl, ?_, ?_⟩
  · exact (resources_released_after_setup { chromeStartFails := false, bodyFails := true }
      staticPage alwaysFails "https://example.org"
      { tempDirs := [], drivers := [], nextId := 0 } rfl rfl rfl).1
  · exact (resources_released_after_setup { chromeStartFails := false, bodyFails := true }
      staticPage alwaysFails "https://example.org"
      { tempDirs := [], drivers := [], nextId := 0 } rfl rfl rfl).2
